import Mathlib

/-!
Verification of the Storm ORM core (`storm/store.py`) against its
natural-language specification, via a shallow embedding in Lean 4.

Conventions used throughout:
* Python's `Undef` sentinel is modelled with `Option` (`none` = `Undef`);
  Python's `None` value, where it must be distinguished from `Undef`,
  gets its own constructor in the relevant value type.
* Machine-independent Python integers are modelled as `Int` (or `Nat`
  where the source can only produce non-negative values).
* Statement execution is modelled as a trace: each operation returns the
  list of statements it handed to `Connection.execute`, in order, along
  with its result.  Exceptions become `Except` values.
* Object identity (`ObjectInfo`) is modelled by `Nat` identifiers with
  explicit finite maps for their mutable state where a claim needs it.
-/

namespace Storm

/-- The exception taxonomy of `storm.exceptions` (the kinds used by
`store.py`). -/
inductive Err where
  | wrongStore
  | notFlushed
  | orderLoop
  | unordered
  | notOne
  | feature
  | compile
  | indexError
  deriving DecidableEq, Repr

/-! ## Expression AST (`storm.expr`, consumed interface)

Modelled from the spec: `storm/expr.py` is not under `src/`; §1 of the
spec treats the expression language as an external collaborator whose
constructors (`Select`, `Eq`, `And`, …) "produce parameterized
statements — we only rely on its shape".  Accordingly each constructor
is a free AST node: building `And es` records exactly the arguments it
was applied to. -/

/-- A where-clause / value expression.  Column and variable payloads are
identifiers and integer values; only the shape matters. -/
inductive SExpr where
  | col (c : Nat)
  | varE (v : Int)
  | eqE (e1 e2 : SExpr)
  | andE (es : List SExpr)

/-! ## C6: `get_where_for_args(args, kwargs, cls=None)`

Source, `store.py` lines 772–783:
```
def get_where_for_args(args, kwargs, cls=None):
    equals = list(args)
    if kwargs:
        if cls is None:
            raise FeatureError(...)
        for key, value in kwargs.items():
            column = getattr(cls, key)
            equals.append(Eq(column, column.variable_factory(value=value)))
    if equals:
        return And(*equals)
    return Undef
```
Keyword arguments are modelled as `(column-id, value)` pairs: the class
argument only serves to resolve attribute names to columns
(`getattr(cls, key)`), so the resolver is the identity on column ids and
`cls` is reduced to its presence.  The result is `Option SExpr` with
`none` for the `Undef` sentinel. -/
/-- The final `if equals: return And(*equals) / return Undef` step. -/
def whereOfEquals (equals : List SExpr) : Option SExpr :=
  match equals with
  | [] => none
  | _ => some (SExpr.andE equals)

/-- The `Eq(column, column.variable_factory(value=value))` terms appended
for the keyword arguments, in iteration order. -/
def kwargEquals (kwargs : List (Nat × Int)) : List SExpr :=
  kwargs.map fun kv => SExpr.eqE (SExpr.col kv.1) (SExpr.varE kv.2)

def get_where_for_args (args : List SExpr) (kwargs : List (Nat × Int))
    (cls : Option Unit) : Except Err (Option SExpr) :=
  match kwargs, cls with
  | [], _ => Except.ok (whereOfEquals args)
  | _ :: _, none => Except.error Err.feature
  | _ :: _, some _ => Except.ok (whereOfEquals (args ++ kwargEquals kwargs))

example : get_where_for_args [] [] none = Except.ok none := rfl
example : get_where_for_args [SExpr.col 0] [] none
    = Except.ok (some (SExpr.andE [SExpr.col 0])) := rfl
example : get_where_for_args [] [(3, 7)] none = Except.error Err.feature := rfl

/-! ## C7: slicing (`ResultSet.__getitem__` with a slice index)

Source, `store.py` lines 514–533.  A `ResultSet`'s slicing state is the
pair of its `_offset` and `_limit` fields (`Undef` ↦ `none`).  A Python
slice `start:stop` (no step) is two `Option Int`s; in `rs[a:b]` with
integer `a` the test `index.start is not None` succeeds even for `a = 0`.
The method ends with `self.copy().config(offset=offset, limit=limit)`;
`config` overwrites a field whenever the argument is not Python `None`,
and the computed `offset`/`limit` here are `Undef` or integers, never
`None`, so both fields are overwritten with the computed values. -/
structure SliceState where
  offset : Option Int
  limit : Option Int
  deriving DecidableEq, Repr

def getitemSlice (rs : SliceState) (start stop : Option Int) : SliceState :=
  let offset := rs.offset
  let limit := rs.limit
  let (offset, limit) :=
    match start with
    | none => (offset, limit)
    | some s =>
      let offset := match offset with
        | none => some s
        | some o => some (o + s)
      let limit := match limit with
        | none => none
        | some l => some (max 0 (l - s))
      (offset, limit)
  let limit :=
    match stop with
    | none => limit
    | some t =>
      let new_limit := match start with
        | none => t
        | some s => t - s
      match limit with
      | none => some new_limit
      | some l => if l > new_limit then some new_limit else some l
  { offset := offset, limit := limit }

example :
    getitemSlice { offset := none, limit := none } (some 2) (some 5)
      = { offset := some 2, limit := some 3 } := by decide
example :
    getitemSlice { offset := some 4, limit := some 10 } (some 2) none
      = { offset := some 6, limit := some 8 } := by decide

/-! ## C1: `ResultSet.one()`

Source, `store.py` lines 590–608:
```
select = self._get_select()
# limit could be 1 due to slicing, for instance.
if select.limit is not Undef and select.limit > 2:
    select.limit = 2
result = self._store._connection.execute(select)
values = result.get_one()
if result.get_one():
    raise NotOneError(...)
if values:
    return self._store._load_objects(...)
return None
```
A row is `List Int`; hydration (`_load_objects`) is the identity on rows.
The connection is modelled by the list of rows the database would return
for the un-limited query; executing a `Select` with limit `l` yields the
first `l` of them (`none` = no limit).  Row tuples are non-empty (a class
has at least one column), so Python's `if values:` is `Option.isSome`. -/
abbrev Row := List Int

/-- The limit carried by the Select that `one()` executes, given the
result set's `_limit` field (`none` = `Undef`). -/
def oneSelectLimit (rsLimit : Option Int) : Option Int :=
  match rsLimit with
  | none => none
  | some l => if l > 2 then some 2 else some l

/-- The connection: rows produced by executing a select with the given
limit, when the un-limited query would produce `dbRows`. -/
def applyLimit (limit : Option Int) (dbRows : List Row) : List Row :=
  match limit with
  | none => dbRows
  | some l => dbRows.take l.toNat

/-- `result.get_one()`: pop the next row from the cursor. -/
def getOne (cursor : List Row) : Option Row × List Row :=
  (cursor.head?, cursor.tail)

/-- `one()` as executed-select-limit plus outcome. -/
def one (rsLimit : Option Int) (dbRows : List Row) :
    Option Int × Except Err (Option Row) :=
  let lim := oneSelectLimit rsLimit
  let (values, cursor) := getOne (applyLimit lim dbRows)
  let (second, _) := getOne cursor
  (lim, if second.isSome then Except.error Err.notOne else Except.ok values)

example : one none [[1], [2]] = (none, Except.error Err.notOne) := rfl
example : one (some 5) [[1]] = (some 2, Except.ok (some [1])) := rfl
example : one (some 1) [[1], [2]] = (some 1, Except.ok (some [1])) := rfl

/-! ## C2: which public operations flush before executing

Traces of calls the operations make on `flush` and on
`Connection.execute`, read off the source:
* `Store.execute` (lines 47–49): `self.flush()` then
  `self._connection.execute(statement, ...)`.
* `Store.get` (lines 85–114): `self.flush()` first; on an identity-map
  hit no statement is executed, otherwise one `Select`.
* `Store.find` (lines 116–124): `self.flush()` first; builds a
  `ResultSet`, executes nothing.
* `Store.remove` (lines 172–188): mutates pending/dirty/ghost state
  only; calls neither `flush` nor `Connection.execute`.
* `ResultSet.remove` (lines 616–623): after the slicing/tuple checks it
  calls `self._store._connection.execute(Delete(...))` directly, with no
  call to `flush`. -/
inductive StmtKind where
  | selectS
  | insertS
  | updateS
  | deleteS
  deriving DecidableEq, Repr

inductive Action where
  | flushAct
  | execAct (s : StmtKind)
  deriving DecidableEq, Repr

def store_execute_trace : List Action :=
  [Action.flushAct, Action.execAct StmtKind.selectS]

def store_get_trace (cacheHit : Bool) : List Action :=
  Action.flushAct :: (if cacheHit then [] else [Action.execAct StmtKind.selectS])

def store_find_trace : List Action := [Action.flushAct]

def store_remove_trace : List Action := []

def resultset_remove_trace (sliced tupleSpec : Bool) : Except Err (List Action) :=
  if sliced then Except.error Err.feature
  else if tupleSpec then Except.error Err.feature
  else Except.ok [Action.execAct StmtKind.deleteS]

/-- `tr` contains a `flush` call, and it precedes every statement
execution. -/
def flushesFirst (tr : List Action) : Bool :=
  match tr with
  | Action.flushAct :: _ => true
  | _ => false

example : flushesFirst store_execute_trace = true := by decide
example : flushesFirst store_remove_trace = false := by decide

/-! ## C3 / C8: `ResultSet.set(*args, **kwargs)` and mutator return values

Source, `store.py` lines 675–726.

`Variable` is external (`storm/variables.py` is not under `src/`).
Modelled from the spec: §3 describes a Variable as a "change-tracked
scalar: value, defined?, changed-since-checkpoint?", and the glossary
defines *checkpoint* as "snapshot a Variable's current value as its new
baseline for change tracking".  So a variable is its current value plus
the checkpointed baseline; `has_changed()` compares the two.  For this
claim values are `Option Int`, `none` standing for Python `None`
(SQL NULL); the undefined sentinel plays no role in `set`'s
reconciliation. -/
structure CVar where
  value : Option Int
  lastValue : Option Int
  deriving DecidableEq, Repr

def CVar.set (v : CVar) (x : Option Int) : CVar := { v with value := x }

def CVar.checkpoint (v : CVar) : CVar := { v with lastValue := v.value }

def CVar.has_changed (v : CVar) : Bool := v.value ≠ v.lastValue

/-- An entry of the `changes` map built by `set`: the Python `None`
literal, a `Variable`, or a `Column` reference. -/
inductive SetVal where
  | noneV
  | varV (v : Option Int)
  | colV (c : Nat)
  deriving DecidableEq, Repr

/-- A positional argument to `set`: `Eq(Column, Variable)`,
`Eq(Column, Column)`, or anything else (which is rejected). -/
inductive SetArg where
  | eqColVar (c : Nat) (v : Option Int)
  | eqColCol (c c2 : Nat)
  | badExpr
  deriving DecidableEq, Repr

/-- The value of a keyword argument to `set`: Python `None`, a `Column`,
a non-`Column` expression (rejected), or a raw value (wrapped in a
variable by the column's factory). -/
inductive SetKwarg where
  | noneVal
  | colVal (c : Nat)
  | badExprVal
  | rawVal (v : Int)
  deriving DecidableEq, Repr

def argChange : SetArg → Except Err (Nat × SetVal)
  | SetArg.eqColVar c v => Except.ok (c, SetVal.varV v)
  | SetArg.eqColCol c c2 => Except.ok (c, SetVal.colV c2)
  | SetArg.badExpr => Except.error Err.feature

def kwargChange : Nat × SetKwarg → Except Err (Nat × SetVal)
  | (c, SetKwarg.noneVal) => Except.ok (c, SetVal.noneV)
  | (c, SetKwarg.colVal c2) => Except.ok (c, SetVal.colV c2)
  | (_, SetKwarg.badExprVal) => Except.error Err.feature
  | (c, SetKwarg.rawVal v) => Except.ok (c, SetVal.varV (some v))

/-- The `changes` dict in insertion order: positional arguments first,
then keyword arguments (distinct columns in practice). -/
def buildChanges (args : List SetArg) (kwargs : List (Nat × SetKwarg)) :
    Except Err (List (Nat × SetVal)) := do
  let a ← args.mapM argChange
  let k ← kwargs.mapM kwargChange
  pure (a ++ k)

/-- The cache-reconciliation loop of `set` on one cached object, whose
variables are the column-indexed map `vars`:
```
for column, value in changes:
    variables = get_obj_info(obj).variables
    if value is None:
        pass
    elif isinstance(value, Variable):
        value = value.get()
    else:
        value = variables[value].get()
    variables[column].set(value)
    variables[column].checkpoint()
```
Note that the `value is None` branch is `pass`, not `continue`: the
`set`/`checkpoint` pair still runs, with `value` still the Python
`None`. -/
def setReconcileObj (changes : List (Nat × SetVal)) (vars : Nat → CVar) :
    Nat → CVar :=
  changes.foldl
    (fun vars cv =>
      let v : Option Int :=
        match cv.2 with
        | SetVal.noneV => none
        | SetVal.varV w => w
        | SetVal.colV c2 => (vars c2).value
      fun c => if c = cv.1 then ((vars cv.1).set v).checkpoint else vars c)
    vars

example :
    (setReconcileObj [(5, SetVal.noneV)] (fun _ => ⟨some 7, some 7⟩)) 5
      = ⟨none, none⟩ := by decide
example :
    (setReconcileObj [(5, SetVal.colV 3)]
        (fun c => if c = 3 then ⟨some 9, some 9⟩ else ⟨some 7, some 7⟩)) 5
      = ⟨some 9, some 9⟩ := by decide

/-- What a method hands back to its caller on success: the receiver
itself, or Python's implicit `None`. -/
inductive RetVal where
  | rvSelf
  | rvNone
  deriving DecidableEq, Repr

/-- `ResultSet.set`'s return value (lines 675–726): `return` with no
value on an empty change set, and falling off the end of the method
otherwise — both produce Python `None`. -/
def resultset_set_ret (tupleSpec : Bool) (args : List SetArg)
    (kwargs : List (Nat × SetKwarg)) : Except Err RetVal :=
  if tupleSpec then Except.error Err.feature
  else if args.isEmpty && kwargs.isEmpty then Except.ok RetVal.rvNone
  else do
    let _ ← buildChanges args kwargs
    pure RetVal.rvNone

/-- The mutable fields of a `ResultSet` relevant to `config` and
`order_by`. -/
structure RSFields where
  distinct : Bool
  offset : Option Int
  limit : Option Int
  order_by : Option (List Nat)
  deriving DecidableEq, Repr

/-- `ResultSet.config` (lines 465–472): each argument is ignored when it
is Python `None` (outer `none`) and otherwise overwrites the field with
its payload; ends in `return self`. -/
def resultset_config (rs : RSFields) (distinct : Option Bool)
    (offset limit : Option (Option Int)) : RSFields × RetVal :=
  ({ rs with
      distinct := distinct.getD rs.distinct,
      offset := offset.getD rs.offset,
      limit := limit.getD rs.limit },
   RetVal.rvSelf)

/-- `ResultSet.order_by` (lines 610–614): rejects sliced result sets,
otherwise stores the expressions and ends in `return self`. -/
def resultset_order_by (rs : RSFields) (args : List Nat) :
    Except Err (RSFields × RetVal) :=
  if rs.offset ≠ none || rs.limit ≠ none then Except.error Err.feature
  else Except.ok ({ rs with order_by := some args }, RetVal.rvSelf)

/-- `ResultSet.remove`'s return value (lines 616–623): after the checks
it executes the `Delete` and falls off the end of the method. -/
def resultset_remove_ret (sliced tupleSpec : Bool) : Except Err RetVal :=
  if sliced then Except.error Err.feature
  else if tupleSpec then Except.error Err.feature
  else Except.ok RetVal.rvNone

/-! ## C10: `ResultSet.values(*columns)` is a generator

Source, `store.py` lines 656–673.  The method body contains `yield`, so
in Python calling it runs none of the body: it only allocates a
generator object holding the arguments.  The body runs when the
generator is first advanced; its first steps are the
`if not columns: raise FeatureError(...)` check, then building and
executing the Select.  The model separates the (pure, total) call from
the first advance, which returns the statements executed so far together
with the outcome. -/
structure ValuesGen where
  columns : List Nat
  deriving DecidableEq, Repr

/-- Calling `values(*columns)`: generator creation, runs no body code,
cannot raise. -/
def resultset_values_call (columns : List Nat) : ValuesGen :=
  { columns := columns }

/-- Advancing the generator for the first time: the `not columns` check
fires before anything is executed; otherwise one Select is executed and
the first row (if any) is yielded.  `dbRows` are the rows the connection
returns for the column-projected Select. -/
def valuesGen_first (g : ValuesGen) (dbRows : List Row) :
    List StmtKind × Except Err (Option Row) :=
  if g.columns.isEmpty then ([], Except.error Err.feature)
  else ([StmtKind.selectS], Except.ok dbRows.head?)

example : valuesGen_first (resultset_values_call []) [[1], [2]]
    = ([], Except.error Err.feature) := rfl
example : valuesGen_first (resultset_values_call [4]) [[1], [2]]
    = ([StmtKind.selectS], Except.ok (some [1])) := rfl

/-! ## C9: `Store._flush_one`

Source, `store.py` lines 245–301.  The per-object state `_flush_one`
reads is the pending marker and, per column, the two flags
`is_defined()` / `has_changed()` of its variable; `checkpoint()` resets
`has_changed` (the current value becomes the baseline) and leaves
definedness alone.  Statement payloads and the store-level cache/ghost
transitions are abstracted to the statement kinds and the emitted
events; in the `PENDING_ADD` branch `_fill_missing_values` executes an
extra Select exactly when some column's variable is undefined, and
afterwards every column holds a database-backed, checkpointed value. -/
inductive Pending where
  | pAdd
  | pRemove
  deriving DecidableEq, Repr

structure FVar where
  defined : Bool
  changed : Bool
  deriving DecidableEq, Repr

def FVar.checkpoint (v : FVar) : FVar := { v with changed := false }

inductive Event where
  | addedEv
  | changedEv
  | flushedEv
  deriving DecidableEq, Repr

structure FlushObj where
  pending : Option Pending
  vars : List FVar
  deriving DecidableEq, Repr

def flush_one (o : FlushObj) : List StmtKind × FlushObj × List Event :=
  match o.pending with
  | some Pending.pRemove =>
      ([StmtKind.deleteS], { o with pending := none }, [Event.flushedEv])
  | some Pending.pAdd =>
      let fill := if o.vars.any (fun v => !v.defined) then [StmtKind.selectS]
        else []
      (StmtKind.insertS :: fill,
       { pending := none, vars := o.vars.map (fun _ => ⟨true, false⟩) },
       [Event.flushedEv])
  | none =>
      let hasChanges := o.vars.any (fun v => v.changed && v.defined)
      ((if hasChanges then [StmtKind.updateS] else []),
       { o with vars := o.vars.map FVar.checkpoint },
       [Event.flushedEv])

example :
    flush_one ⟨none, [⟨true, true⟩]⟩
      = ([StmtKind.updateS], ⟨none, [⟨true, false⟩]⟩, [Event.flushedEv]) := by
  decide
example :
    flush_one ⟨none, [⟨false, true⟩, ⟨true, false⟩]⟩
      = ([], ⟨none, [⟨false, false⟩, ⟨true, false⟩]⟩, [Event.flushedEv]) := by
  decide

/-! ## C5: `Store.flush()`

Source, `store.py` lines 207–243.  Dirty `ObjectInfo`s are `Nat`
identifiers; the Python set `_dirty` becomes a duplicate-free list in
iteration order, and the `_order` dict a key-unique association list
`(before, after) ↦ count`.  The `while` loop is written with the list
length as structural fuel: each iteration removes the picked element, so
`dirty.length` steps always suffice and the fuel-exhausted case is
unreachable (and conservatively reports the same error as a stuck
loop — it never produces an `ok`, which is all the theorems rely on). -/

/-- `add_flush_order` (lines 207–212): increment the pair's count,
starting at 1 on `KeyError`. -/
def add_flush_order (order : List ((Nat × Nat) × Int)) (before after : Nat) :
    List ((Nat × Nat) × Int) :=
  match order.lookup (before, after) with
  | some _ => order.map (fun e =>
      if e.1 = (before, after) then (e.1, e.2 + 1) else e)
  | none => order ++ [((before, after), 1)]

/-- `remove_flush_order` (lines 214–219): decrement, ignoring
`KeyError`. -/
def remove_flush_order (order : List ((Nat × Nat) × Int))
    (before after : Nat) : List ((Nat × Nat) × Int) :=
  match order.lookup (before, after) with
  | some _ => order.map (fun e =>
      if e.1 = (before, after) then (e.1, e.2 - 1) else e)
  | none => order

/-- The predecessors map built at the top of `flush()` (lines 222–229),
as a function: only pairs with positive count contribute. -/
def predsOf (order : List ((Nat × Nat) × Int)) (x : Nat) : List Nat :=
  (order.filter (fun e => e.1.2 == x && decide (0 < e.2))).map (fun e => e.1.1)

/-- The inner `for` of `flush()`: the first dirty object none of whose
predecessors is still dirty, if any. -/
def pickFlushable (dirty : List Nat) (preds : Nat → List Nat) : Option Nat :=
  dirty.find? (fun x => (preds x).all (fun b => !dirty.contains b))

def flushLoopAux : Nat → List Nat → (Nat → List Nat) → Except Err (List Nat)
  | _, [], _ => Except.ok []
  | 0, _ :: _, _ => Except.error Err.orderLoop
  | fuel + 1, d :: ds, preds =>
    match pickFlushable (d :: ds) preds with
    | none => Except.error Err.orderLoop
    | some x =>
      match flushLoopAux fuel ((d :: ds).erase x) preds with
      | Except.error e => Except.error e
      | Except.ok seq => Except.ok (x :: seq)

/-- The `while self._dirty:` loop, returning the sequence of objects
flushed, in order. -/
def flushLoop (dirty : List Nat) (preds : Nat → List Nat) :
    Except Err (List Nat) :=
  flushLoopAux dirty.length dirty preds

/-- The flush-relevant state of a `Store`. -/
structure Store5 where
  dirty : List Nat
  order : List ((Nat × Nat) × Int)

/-- `flush()`: run the loop; on success the dirty set has been drained
and `self._order.clear()` has run. -/
def store_flush (s : Store5) : Except Err (Store5 × List Nat) :=
  match flushLoop s.dirty (predsOf s.order) with
  | Except.error e => Except.error e
  | Except.ok seq => Except.ok ({ dirty := [], order := [] }, seq)

/-- `seq` respects the predecessor map: each element has no predecessor
among the elements not yet flushed (itself included). -/
def noPredIn (preds : Nat → List Nat) : List Nat → Bool
  | [] => true
  | x :: rest =>
    ((preds x).all (fun b => !(x :: rest).contains b)) && noPredIn preds rest

example :
    flushLoop [0, 1] (predsOf (add_flush_order (add_flush_order [] 0 1) 1 0))
      = Except.error Err.orderLoop := rfl
example :
    flushLoop [0, 1] (predsOf (add_flush_order [] 1 0))
      = Except.ok [1, 0] := rfl
example : flushLoop [0, 1] (predsOf []) = Except.ok [0, 1] := rfl

/-! ## C4: the identity-map invariant

Source, `store.py` lines 413–434 (`_add_to_cache`,
`_remove_from_cache`) and 708–726 (the cache-reconciliation step of
`ResultSet.set`, which mutates cached objects' variables in place).

`ObjectInfo`s are `Nat` identifiers with their mutable state in an
explicit map, so that aliasing between the identity map and object state
is modelled faithfully.  Variable snapshots (`variable.copy()` at line
422) value-equal the live variable at snapshot time but do not alias it,
so they are the plain values.  `clsOf`/`pkColsOf` are the static
metadata: the class of each object and each class's ordered primary-key
columns. -/
structure ObjInfo4 where
  vars : Nat → Int
  primary_vars : Option (List Int)

structure Meta4 where
  clsOf : Nat → Nat
  pkColsOf : Nat → List Nat

/-- The live `obj_info.primary_vars` property: the current values of the
primary-key columns' variables. -/
def livePK (m : Meta4) (i : Nat) (o : ObjInfo4) : List Int :=
  (m.pkColsOf (m.clsOf i)).map o.vars

structure CacheState where
  cache : List ((Nat × List Int) × Nat)
  infos : Nat → ObjInfo4

/-- `_add_to_cache` (lines 413–425): evict the stale key if present,
snapshot the live primary variables, insert under the fresh key
(dict assignment replaces any entry at that key), and store the fresh
tuple on the info. -/
def add_to_cache (m : Meta4) (s : CacheState) (i : Nat) : CacheState :=
  let o := s.infos i
  let cls := m.clsOf i
  let afterPop :=
    match o.primary_vars with
    | some old => s.cache.filter (fun (e : (Nat × List Int) × Nat) => e.1 ≠ (cls, old))
    | none => s.cache
  let newPV := livePK m i o
  { cache := afterPop.filter (fun e => e.1 ≠ (cls, newPV)) ++ [((cls, newPV), i)],
    infos := fun j =>
      if j = i then { o with primary_vars := some newPV } else s.infos j }

/-- `_remove_from_cache` (lines 427–431). -/
def remove_from_cache (m : Meta4) (s : CacheState) (i : Nat) : CacheState :=
  match (s.infos i).primary_vars with
  | none => s
  | some pv =>
    { cache := s.cache.filter (fun e => e.1 ≠ (m.clsOf i, pv)),
      infos := fun j =>
        if j = i then { s.infos j with primary_vars := none }
        else s.infos j }

/-- In-place mutation of one object's variables — what an attribute
assignment, `_set_values`, or the reconciliation loop of
`ResultSet.set` does (lines 716–726); the stored `primary_vars`
snapshot and the identity map are untouched. -/
def touchVariables (s : CacheState) (i : Nat) (f : (Nat → Int) → Nat → Int) :
    CacheState :=
  { s with
    infos := fun j =>
      if j = i then { s.infos j with vars := f (s.infos j).vars }
      else s.infos j }

/-- The invariant: every identity-map entry is keyed by its info's class
together with exactly the `primary_vars` tuple stored on that info. -/
def cacheInv (m : Meta4) (s : CacheState) : Prop :=
  ∀ e ∈ s.cache, e.1.1 = m.clsOf e.2 ∧ (s.infos e.2).primary_vars = some e.1.2

/-! # Theorems -/

/-! ### C1 -/

theorem applyLimit_take_two (lim : Option Int) (xs : List Row) :
    applyLimit lim (xs.take 2) = (applyLimit lim xs).take 2 := by
  cases lim with
  | none => rfl
  | some l => simp [applyLimit, List.take_take, Nat.min_comm]

theorem oneSelectLimit_eq_min (rsLimit : Option Int) :
    oneSelectLimit rsLimit = rsLimit.map (fun l => min l 2) := by
  cases rsLimit with
  | none => rfl
  | some l =>
    by_cases h : l > 2
    · simp [oneSelectLimit, h]
      omega
    · simp [oneSelectLimit, h]
      omega

theorem one_outcome_char (xs : List Row) :
    (if (xs.tail.head?).isSome then (Except.error Err.notOne : Except Err (Option Row))
      else Except.ok xs.head?)
      = if 2 ≤ xs.length then Except.error Err.notOne else Except.ok xs.head? := by
  match xs with
  | [] => simp
  | [a] => simp
  | a :: b :: t => simp

theorem one_snd_eq (rsLimit : Option Int) (dbRows : List Row) :
    (one rsLimit dbRows).2
      = if ((applyLimit (oneSelectLimit rsLimit) dbRows).tail.head?).isSome
        then Except.error Err.notOne
        else Except.ok (applyLimit (oneSelectLimit rsLimit) dbRows).head? := rfl

/-- C1 (counterexample): the claim says that with no limit configured on
the result set, `one()` executes its Select with limit 2.  In the code
the guard is `select.limit is not Undef and select.limit > 2`, so an
unset limit stays unset: the executed Select carries no limit at all. -/
theorem one_unset_limit_not_two :
    (one none []).1 = none ∧ (one none []).1 ≠ some 2 := by
  exact ⟨rfl, by decide⟩

/-- C1 (corrected): `one()` executes its Select with
limit `min(l, 2)` when a limit `l` is configured and with *no* limit
when none is configured (not limit 2, as claimed); its outcome depends
only on the first two rows the database would return under that limit
(it never consumes a third row); it raises NotOneError exactly when at
least two rows are available, and otherwise returns the first row,
hydrated, or none. -/
theorem one_exec_spec (rsLimit : Option Int) (dbRows : List Row) :
    one rsLimit dbRows
      = (rsLimit.map (fun l => min l 2),
         if 2 ≤ (applyLimit (oneSelectLimit rsLimit) dbRows).length
         then Except.error Err.notOne
         else Except.ok (applyLimit (oneSelectLimit rsLimit) dbRows).head?)
    ∧ (one rsLimit dbRows).2 = (one rsLimit (dbRows.take 2)).2 := by
  constructor
  · have h1 : one rsLimit dbRows = (oneSelectLimit rsLimit, (one rsLimit dbRows).2) := rfl
    rw [h1, one_snd_eq, one_outcome_char, oneSelectLimit_eq_min]
  · rw [one_snd_eq, one_snd_eq, applyLimit_take_two]
    generalize applyLimit (oneSelectLimit rsLimit) dbRows = xs
    match xs with
    | [] => rfl
    | [a] => rfl
    | a :: b :: t => rfl

/-! ### C2 -/

/-- C2 (counterexample): the claim says `remove` also flushes before
executing.  `Store.remove` (lines 172–188) neither flushes nor executes
anything — it only marks the object pending-removal — and
`ResultSet.remove` (lines 616–623) hands its `Delete` to the connection
with no preceding `flush()`. -/
theorem remove_executes_without_flush :
    store_remove_trace = []
    ∧ resultset_remove_trace false false
        = Except.ok [Action.execAct StmtKind.deleteS]
    ∧ flushesFirst [Action.execAct StmtKind.deleteS] = false := by
  exact ⟨rfl, rfl, rfl⟩

/-- C2 (corrected): `find`, `get` and `execute` do call `flush()` before
any statement of their own reaches the connection, but neither
`Store.remove` (which performs no connection call and no flush) nor
`ResultSet.remove` (which executes its `Delete` without flushing)
does. -/
theorem flush_before_execute_spec :
    flushesFirst store_execute_trace = true
    ∧ (∀ cacheHit, flushesFirst (store_get_trace cacheHit) = true)
    ∧ flushesFirst store_find_trace = true
    ∧ store_remove_trace = []
    ∧ resultset_remove_trace false false
        = Except.ok [Action.execAct StmtKind.deleteS] := by
  refine ⟨rfl, ?_, rfl, rfl, rfl⟩
  intro cacheHit
  cases cacheHit <;> rfl

/-! ### C6 -/

/-- C6 (counterexample): with exactly one positional expression and no
keyword arguments, `get_where_for_args` returns `And(expr)` — a
one-element conjunction — not the expression itself: the code's final
step is `return And(*equals)` whenever `equals` is non-empty. -/
theorem get_where_single_wrapped :
    get_where_for_args [SExpr.col 0] [] none
      = Except.ok (some (SExpr.andE [SExpr.col 0]))
    ∧ get_where_for_args [SExpr.col 0] [] none
        ≠ Except.ok (some (SExpr.col 0)) := by
  refine ⟨rfl, ?_⟩
  intro h
  simp [get_where_for_args, whereOfEquals] at h

/-- C6 (corrected): with both inputs empty the no-where sentinel
(`Undef`) is returned; with any expressions at all — including a single
one — the result is the conjunction `And` of all of them, the single
expression being wrapped as a one-element conjunction rather than
returned directly; keyword arguments require the class argument
(else FeatureError) and contribute their equality terms after the
positional ones. -/
theorem get_where_spec :
    (∀ cls, get_where_for_args [] [] cls = Except.ok none)
    ∧ (∀ cls args, args ≠ [] →
        get_where_for_args args [] cls = Except.ok (some (SExpr.andE args)))
    ∧ (∀ args kwargs, kwargs ≠ [] →
        get_where_for_args args kwargs none = Except.error Err.feature)
    ∧ (∀ args kwargs, kwargs ≠ [] →
        get_where_for_args args kwargs (some ())
          = Except.ok (some (SExpr.andE (args ++ kwargEquals kwargs)))) := by
  refine ⟨fun cls => by cases cls <;> rfl, ?_, ?_, ?_⟩
  · intro cls args h
    cases args with
    | nil => exact absurd rfl h
    | cons a rest => cases cls <;> rfl
  · intro args kwargs h
    cases kwargs with
    | nil => exact absurd rfl h
    | cons k rest => rfl
  · intro args kwargs h
    cases kwargs with
    | nil => exact absurd rfl h
    | cons k rest =>
      show Except.ok (whereOfEquals (args ++ kwargEquals (k :: rest))) = _
      cases args with
      | nil => rfl
      | cons a arest => rfl

/-- C6 (witness): the amended statement at concrete inputs. -/
theorem get_where_spec_witness :
    get_where_for_args [SExpr.col 4] [] none
      = Except.ok (some (SExpr.andE [SExpr.col 4]))
    ∧ get_where_for_args [] [(1, 5)] none = Except.error Err.feature
    ∧ get_where_for_args [SExpr.col 4] [(1, 5)] (some ())
        = Except.ok (some (SExpr.andE
            [SExpr.col 4, SExpr.eqE (SExpr.col 1) (SExpr.varE 5)])) :=
  ⟨get_where_spec.2.1 none [SExpr.col 4] (by simp),
   get_where_spec.2.2.1 [] [(1, 5)] (by simp),
   get_where_spec.2.2.2 [SExpr.col 4] [(1, 5)] (by simp)⟩

/-! ### C7 -/

/-- C7 (counterexample): slice composition can fail when the inner
start runs past the outer stop.  With `a = 0, b = 1, c = 2, d = 3` on a
result set with unset limit, `rs[0:1][2:3]` has limit 0 (the
`max(0, limit - start)` floor), while `rs[0+2 : min(1, 0+3)]` = `rs[2:1]`
gets the raw limit `1 - 2 = -1`: the two offsets agree but the limits
differ, refuting the unrestricted law. -/
theorem slice_composition_fails :
    getitemSlice (getitemSlice ⟨none, none⟩ (some 0) (some 1)) (some 2) (some 3)
      = ⟨some 2, some 0⟩
    ∧ getitemSlice ⟨none, none⟩ (some (0 + 2)) (some (min 1 (0 + 3)))
        = ⟨some 2, some (-1)⟩
    ∧ (⟨some 2, some 0⟩ : SliceState) ≠ ⟨some 2, some (-1)⟩ := by
  exact ⟨by decide, by decide, by decide⟩

/-- C7 (corrected): for non-negative integers `a, b, c, d` with the
extra proviso `a + c ≤ b` (the inner start does not run past the outer
stop), `rs[a:b][c:d]` equals `rs[a+c : min(b, a+d)]` on a result set
with unset limit and any offset.  Without the proviso the law does not
hold in general: at `a = 0, b = 1, c = 2, d = 3` the composed slice's
limit is floored at 0 while the single slice's is negative (see the
counterexample). -/
theorem slice_composition (off : Option Int) (a b c d : Int)
    (ha : 0 ≤ a) (hb : 0 ≤ b) (hc : 0 ≤ c) (hd : 0 ≤ d)
    (hacb : a + c ≤ b) :
    getitemSlice (getitemSlice ⟨off, none⟩ (some a) (some b)) (some c) (some d)
      = getitemSlice ⟨off, none⟩ (some (a + c)) (some (min b (a + d))) := by
  cases off with
  | none =>
    simp only [getitemSlice, SliceState.mk.injEq]
    refine ⟨trivial, ?_⟩
    split
    · simp only [Option.some.injEq]
      omega
    · simp only [Option.some.injEq]
      omega
  | some o =>
    simp only [getitemSlice, SliceState.mk.injEq, Option.some.injEq]
    refine ⟨by omega, ?_⟩
    split
    · simp only [Option.some.injEq]
      omega
    · simp only [Option.some.injEq]
      omega

/-- C7 (witness): the amended composition law at `a=0, b=2, c=1, d=5`
with unset offset. -/
theorem slice_composition_witness :
    getitemSlice (getitemSlice ⟨none, none⟩ (some 0) (some 2)) (some 1) (some 5)
      = getitemSlice ⟨none, none⟩ (some (0 + 1)) (some (min 2 (0 + 5))) :=
  slice_composition none 0 2 1 5 (by decide) (by decide) (by decide)
    (by decide) (by decide)

/-! ### C8 -/

/-- C8 (counterexample): `set` and `remove` succeed yet return Python
`None`, not `self`: `set` either takes the early `return` (empty change
map) or falls off the end of the method body, and `remove` always falls
off the end. -/
theorem set_remove_return_none :
    resultset_set_ret false [] [] = Except.ok RetVal.rvNone
    ∧ resultset_remove_ret false false = Except.ok RetVal.rvNone
    ∧ RetVal.rvNone ≠ RetVal.rvSelf := by
  exact ⟨rfl, rfl, by decide⟩

/-- C8 (corrected): of the four mutators, only `config` and `order_by`
return `self` on success; `set` and `remove` either raise or return
Python `None`. -/
theorem mutator_return_values :
    (∀ rs distinct offset limit,
      (resultset_config rs distinct offset limit).2 = RetVal.rvSelf)
    ∧ (∀ rs args, resultset_order_by rs args = Except.error Err.feature
        ∨ resultset_order_by rs args
            = Except.ok ({ rs with order_by := some args }, RetVal.rvSelf))
    ∧ (∀ tupleSpec args kwargs,
        (∃ e, resultset_set_ret tupleSpec args kwargs = Except.error e)
        ∨ resultset_set_ret tupleSpec args kwargs = Except.ok RetVal.rvNone)
    ∧ (∀ sliced tupleSpec,
        (∃ e, resultset_remove_ret sliced tupleSpec = Except.error e)
        ∨ resultset_remove_ret sliced tupleSpec = Except.ok RetVal.rvNone) := by
  refine ⟨fun rs distinct offset limit => rfl, ?_, ?_, ?_⟩
  · intro rs args
    unfold resultset_order_by
    split
    · exact Or.inl rfl
    · exact Or.inr rfl
  · intro tupleSpec args kwargs
    unfold resultset_set_ret
    split
    · exact Or.inl ⟨_, rfl⟩
    · split
      · exact Or.inr rfl
      · cases h : buildChanges args kwargs with
        | error e =>
          refine Or.inl ⟨e, ?_⟩
          simp [h]
        | ok l =>
          refine Or.inr ?_
          simp [h]
  · intro sliced tupleSpec
    unfold resultset_remove_ret
    split
    · exact Or.inl ⟨_, rfl⟩
    · split
      · exact Or.inl ⟨_, rfl⟩
      · exact Or.inr rfl

/-! ### C9 -/

/-- C9 (confirmed): flushing a plain-dirty object (no pending marker)
none of whose columns is both changed and defined executes no statement
at all, still checkpoints every variable, and still emits the `flushed`
event. -/
theorem flush_one_no_changes (o : FlushObj) (hp : o.pending = none)
    (hv : ∀ v ∈ o.vars, (v.changed && v.defined) = false) :
    flush_one o
      = ([], { o with vars := o.vars.map FVar.checkpoint },
         [Event.flushedEv]) := by
  unfold flush_one
  rw [hp]
  have hany : o.vars.any (fun v => v.changed && v.defined) = false := by
    rw [List.any_eq_false]
    intro v hvv
    simp [hv v hvv]
  simp [hany]

/-- C9 (witness): a dirty object with one changed-but-undefined column
and one defined-but-unchanged column flushes without a statement; both
variables end up checkpointed and `flushed` is emitted. -/
theorem flush_one_no_changes_witness :
    flush_one ⟨none, [⟨false, true⟩, ⟨true, false⟩]⟩
      = ([], ⟨none, [⟨false, false⟩, ⟨true, false⟩]⟩, [Event.flushedEv]) :=
  flush_one_no_changes ⟨none, [⟨false, true⟩, ⟨true, false⟩]⟩ rfl (by decide)

/-! ### C10 -/

/-- C10 (confirmed): `values()` is a generator, so the call itself runs
none of the body (`resultset_values_call` is pure construction and
cannot raise); with zero columns the FeatureError fires on the first
advance of the iterator, before any Select reaches the connection
(empty statement trace), and with at least one column the first advance
executes exactly the one Select. -/
theorem values_defers_feature_check (dbRows : List Row) :
    valuesGen_first (resultset_values_call []) dbRows
      = ([], Except.error Err.feature)
    ∧ ∀ c cs, valuesGen_first (resultset_values_call (c :: cs)) dbRows
        = ([StmtKind.selectS], Except.ok dbRows.head?) := by
  exact ⟨rfl, fun c cs => rfl⟩

/-! ### C3 -/

theorem setReconcile_cons (p : Nat × SetVal) (rest : List (Nat × SetVal))
    (vars : Nat → CVar) :
    setReconcileObj (p :: rest) vars
      = setReconcileObj rest (fun c =>
          if c = p.1 then
            ((vars p.1).set (match p.2 with
              | SetVal.noneV => none
              | SetVal.varV w => w
              | SetVal.colV c2 => (vars c2).value)).checkpoint
          else vars c) := rfl

theorem setReconcile_frame (changes : List (Nat × SetVal)) (vars : Nat → CVar)
    (c : Nat) (h : c ∉ changes.map Prod.fst) :
    setReconcileObj changes vars c = vars c := by
  induction changes generalizing vars with
  | nil => rfl
  | cons p rest ih =>
    rw [setReconcile_cons]
    have hc : c ≠ p.1 ∧ c ∉ rest.map Prod.fst := by
      simp only [List.map_cons, List.mem_cons] at h
      exact ⟨fun hh => h (Or.inl hh), fun hh => h (Or.inr hh)⟩
    rw [ih _ hc.2]
    simp [hc.1]

theorem setReconcile_checkpointed (changes : List (Nat × SetVal))
    (vars : Nat → CVar) (c : Nat) (h : c ∈ changes.map Prod.fst) :
    ((setReconcileObj changes vars) c).has_changed = false := by
  induction changes generalizing vars with
  | nil => simp at h
  | cons p rest ih =>
    rw [setReconcile_cons]
    by_cases hr : c ∈ rest.map Prod.fst
    · exact ih _ hr
    · have hcp : c = p.1 := by
        simp only [List.map_cons, List.mem_cons] at h
        rcases h with h | h
        · exact h
        · exact absurd h hr
      rw [setReconcile_frame rest _ c hr]
      subst hcp
      simp [CVar.set, CVar.checkpoint, CVar.has_changed]

theorem setReconcile_last_none (pre : List (Nat × SetVal)) (vars : Nat → CVar)
    (c : Nat) :
    setReconcileObj (pre ++ [(c, SetVal.noneV)]) vars c = ⟨none, none⟩ := by
  unfold setReconcileObj
  rw [List.foldl_append]
  simp [CVar.set, CVar.checkpoint]

/-- C3 (counterexample): the claim says a `(column, none)` pair leaves
the cached object's variable unchanged.  In the code the `value is None`
branch is `pass`, after which `variables[column].set(value)` still runs
with `value = None`: a variable holding 7 is overwritten with `None`
(and checkpointed). -/
theorem set_none_overwrites_value :
    (setReconcileObj [(5, SetVal.noneV)] (fun _ => ⟨some 7, some 7⟩)) 5
      = ⟨none, none⟩
    ∧ (⟨none, none⟩ : CVar) ≠ ⟨some 7, some 7⟩ := by
  exact ⟨by decide, by decide⟩

/-- C3 (corrected): in `set`'s cache-reconciliation step a
`(column, none)` pair *sets* the variable to `None` (it does not keep
its current value); columns outside the change map are untouched; and —
as the claim correctly states — every touched variable is checkpointed,
so no touched column is left with a pending change. -/
theorem set_reconcile_spec (changes : List (Nat × SetVal)) (vars : Nat → CVar) :
    (∀ c, c ∉ changes.map Prod.fst → setReconcileObj changes vars c = vars c)
    ∧ (∀ c, c ∈ changes.map Prod.fst →
        ((setReconcileObj changes vars) c).has_changed = false)
    ∧ (∀ pre c,
        setReconcileObj (pre ++ [(c, SetVal.noneV)]) vars c = ⟨none, none⟩) :=
  ⟨fun c h => setReconcile_frame changes vars c h,
   fun c h => setReconcile_checkpointed changes vars c h,
   fun pre c => setReconcile_last_none pre vars c⟩

/-- C3 (witness): the amended statement at concrete inputs: column 6 is
untouched, column 5 ends not-pending, and a trailing `(5, none)` pair
leaves column 5 holding `None`. -/
theorem set_reconcile_spec_witness :
    setReconcileObj [(5, SetVal.noneV)] (fun _ => (⟨some 7, some 7⟩ : CVar)) 6
      = ⟨some 7, some 7⟩
    ∧ ((setReconcileObj [(5, SetVal.noneV)]
          (fun _ => (⟨some 7, some 7⟩ : CVar))) 5).has_changed = false
    ∧ setReconcileObj ([(3, SetVal.varV (some 1))] ++ [(5, SetVal.noneV)])
        (fun _ => (⟨some 7, some 7⟩ : CVar)) 5 = ⟨none, none⟩ :=
  ⟨(set_reconcile_spec [(5, SetVal.noneV)] (fun _ => ⟨some 7, some 7⟩)).1 6
      (by decide),
   (set_reconcile_spec [(5, SetVal.noneV)] (fun _ => ⟨some 7, some 7⟩)).2.1 5
      (by decide),
   (set_reconcile_spec [(5, SetVal.noneV)] (fun _ => ⟨some 7, some 7⟩)).2.2
      [(3, SetVal.varV (some 1))] 5⟩

/-! ### C5 -/

theorem flushLoopAux_ok (fuel : Nat) :
    ∀ (dirty : List Nat) (preds : Nat → List Nat) (seq : List Nat),
      flushLoopAux fuel dirty preds = Except.ok seq →
      seq.Perm dirty ∧ noPredIn preds seq = true := by
  induction fuel with
  | zero =>
    intro dirty preds seq h
    cases dirty with
    | nil =>
      cases h
      exact ⟨List.Perm.refl _, rfl⟩
    | cons d ds => cases h
  | succ n ih =>
    intro dirty preds seq h
    cases dirty with
    | nil =>
      cases h
      exact ⟨List.Perm.refl _, rfl⟩
    | cons d ds =>
      unfold flushLoopAux at h
      cases hp : pickFlushable (d :: ds) preds with
      | none =>
        simp only [hp] at h
        cases h
      | some x =>
        simp only [hp] at h
        unfold pickFlushable at hp
        cases hrec : flushLoopAux n ((d :: ds).erase x) preds with
        | error e =>
          simp only [hrec] at h
          cases h
        | ok seq2 =>
          simp only [hrec] at h
          cases h
          obtain ⟨hperm, hnp⟩ := ih _ preds seq2 hrec
          have hx : x ∈ d :: ds := List.mem_of_find?_eq_some hp
          have hall0 := List.find?_some hp
          have hall : ((preds x).all (fun b => !(d :: ds).contains b)) = true :=
            hall0
          constructor
          · exact (hperm.cons x).trans (List.perm_cons_erase hx).symm
          · rw [noPredIn, hnp, Bool.and_true]
            rw [List.all_eq_true] at hall ⊢
            intro b hb
            have hnd : b ∉ d :: ds := by simpa using hall b hb
            have hbmem : b ∉ x :: seq2 := by
              intro hb'
              apply hnd
              rcases List.mem_cons.mp hb' with h1 | h2
              · exact h1 ▸ hx
              · exact List.mem_of_mem_erase (hperm.mem_iff.mp h2)
            simpa using hbmem

theorem flushLoop_stuck (dirty : List Nat) (preds : Nat → List Nat)
    (hne : dirty ≠ []) (hp : pickFlushable dirty preds = none) :
    flushLoop dirty preds = Except.error Err.orderLoop := by
  cases dirty with
  | nil => exact absurd rfl hne
  | cons d ds => simp [flushLoop, flushLoopAux, hp]

/-- C5 (confirmed): a successful `flush()` drains the dirty set, flushes
it in some order in which every object is flushed only after all its
positive-count predecessors (the order multiset being cleared at the
end); whenever the dirty set is non-empty and no dirty object is free of
dirty predecessors it raises OrderLoopError — in particular with
`add_flush_order(a, b)`, `add_flush_order(b, a)` and both `a` and `b`
dirty. -/
theorem store_flush_spec :
    (∀ (s : Store5) (s' : Store5) (seq : List Nat),
        store_flush s = Except.ok (s', seq) →
        s'.dirty = [] ∧ s'.order = [] ∧ seq.Perm s.dirty
          ∧ noPredIn (predsOf s.order) seq = true)
    ∧ (∀ (dirty : List Nat) (preds : Nat → List Nat), dirty ≠ [] →
        pickFlushable dirty preds = none →
        flushLoop dirty preds = Except.error Err.orderLoop)
    ∧ store_flush ⟨[0, 1], add_flush_order (add_flush_order [] 0 1) 1 0⟩
        = Except.error Err.orderLoop := by
  refine ⟨?_, flushLoop_stuck, rfl⟩
  intro s s' seq h
  unfold store_flush at h
  cases hl : flushLoop s.dirty (predsOf s.order) with
  | error e =>
    rw [hl] at h
    cases h
  | ok seq2 =>
    rw [hl] at h
    cases h
    obtain ⟨hperm, hnp⟩ := flushLoopAux_ok _ _ _ _ hl
    exact ⟨rfl, rfl, hperm, hnp⟩

/-- C5 (witness): a one-element dirty set under a zero-count order edge
flushes successfully with the stated outcome, and a self-loop
predecessor map with a non-empty dirty set is reported as an order
loop. -/
theorem store_flush_spec_witness :
    ((⟨[], []⟩ : Store5).dirty = [] ∧ (⟨[], []⟩ : Store5).order = []
      ∧ List.Perm [7] [7] ∧ noPredIn (predsOf [((3, 7), 0)]) [7] = true)
    ∧ flushLoop [0] (fun _ => [0]) = Except.error Err.orderLoop :=
  ⟨store_flush_spec.1 ⟨[7], [((3, 7), 0)]⟩ ⟨[], []⟩ [7] rfl,
   store_flush_spec.2.1 [0] (fun _ => [0]) (by decide) rfl⟩

/-! ### C4 -/

/-- C4 (confirmed): the identity-map invariant — every entry
`(cls, pk_tuple) ↦ info` has `info["primary_vars"] = pk_tuple` (and
`cls` the info's class) — is preserved by the only three ways any public
operation touches this state: `_add_to_cache`, `_remove_from_cache`, and
in-place mutation of an object's variables.  The third conjunct
quantifies over an arbitrary mutation of one object's variables, so it
covers in particular `ResultSet.set`'s cache-reconciliation loop writing
to a primary-key column: the key and the stored snapshot are value
copies taken at `_add_to_cache` time and are not aliased by the live
variables. -/
theorem cache_inv_preserved (m : Meta4) (s : CacheState) (h : cacheInv m s) :
    (∀ i, cacheInv m (add_to_cache m s i))
    ∧ (∀ i, cacheInv m (remove_from_cache m s i))
    ∧ (∀ i f, cacheInv m (touchVariables s i f)) := by
  refine ⟨?_, ?_, ?_⟩
  · intro i e he
    cases hpv : (s.infos i).primary_vars with
    | none =>
      simp only [add_to_cache, hpv, List.mem_append, List.mem_filter,
        List.mem_singleton, decide_eq_true_eq] at he
      rcases he with ⟨hin, hne⟩ | rfl
      · have hinv := h e hin
        have hei : e.2 ≠ i := by
          intro hh
          rw [hh, hpv] at hinv
          exact Option.noConfusion hinv.2
        refine ⟨hinv.1, ?_⟩
        simp only [add_to_cache, hpv]
        rw [if_neg hei]
        exact hinv.2
      · refine ⟨rfl, ?_⟩
        simp only [add_to_cache, hpv]
        simp
    | some old =>
      simp only [add_to_cache, hpv, List.mem_append, List.mem_filter,
        List.mem_singleton, decide_eq_true_eq] at he
      rcases he with ⟨⟨hin, hneold⟩, hne⟩ | rfl
      · have hinv := h e hin
        have hei : e.2 ≠ i := by
          intro hh
          rw [hh, hpv] at hinv
          apply hneold
          have h2 : e.1.2 = old := by
            have := hinv.2
            exact (Option.some.inj this).symm
          rw [← hinv.1, ← h2]
        refine ⟨hinv.1, ?_⟩
        simp only [add_to_cache, hpv]
        rw [if_neg hei]
        exact hinv.2
      · refine ⟨rfl, ?_⟩
        simp only [add_to_cache, hpv]
        simp
  · intro i e he
    cases hpv : (s.infos i).primary_vars with
    | none =>
      simp only [remove_from_cache, hpv] at he ⊢
      exact h e he
    | some pv =>
      simp only [remove_from_cache, hpv, List.mem_filter,
        decide_eq_true_eq] at he
      obtain ⟨hin, hne⟩ := he
      have hinv := h e hin
      have hei : e.2 ≠ i := by
        intro hh
        rw [hh, hpv] at hinv
        apply hne
        have h2 : e.1.2 = pv := by
          have := hinv.2
          exact (Option.some.inj this).symm
        rw [← hinv.1, ← h2]
      simp only [remove_from_cache, hpv]
      refine ⟨hinv.1, ?_⟩
      rw [if_neg hei]
      exact hinv.2
  · intro i f e he
    simp only [touchVariables] at he ⊢
    have hinv := h e he
    refine ⟨hinv.1, ?_⟩
    by_cases hei : e.2 = i
    · have h2 := hinv.2
      rw [hei] at h2
      simp [hei, h2]
    · rw [if_neg hei]
      exact hinv.2

/-- C4 (witness): the invariant, holding trivially of an empty identity
map, is carried through an `_add_to_cache` call. -/
theorem cache_inv_preserved_witness :
    cacheInv ⟨fun _ => 0, fun _ => [0]⟩
      (add_to_cache ⟨fun _ => 0, fun _ => [0]⟩
        ⟨[], fun _ => ⟨fun _ => 0, none⟩⟩ 3) :=
  (cache_inv_preserved ⟨fun _ => 0, fun _ => [0]⟩
      ⟨[], fun _ => ⟨fun _ => 0, none⟩⟩
      (fun e he => absurd he (List.not_mem_nil e))).1 3

end Storm
